import Mathlib

/-!
Shallow embedding of the Botpress LUIS provider (`src/src/providers/luis.js`).

The provider orchestrates one sync run: change detection against a stored
fingerprint, deletion of the old remote version, payload construction from
the local corpus, import, an asynchronous training poll loop, publish, and
a final fingerprint write.  External collaborators (the md5/JSON digest,
the canonical-label parser, the `Entities` registry, the key-value store
and the HTTP gateway) are modelled as injected functions or scripted
responses; the control flow and data transformations of the provider file
itself are translated statement by statement, including its JavaScript
value semantics (truthiness, `undefined` property reads, short-circuit
boolean operators, `NaN` comparisons).
-/

deriving instance DecidableEq for Except

namespace Luis

/-- The JS `startsWith` test: whether the character sequence of the
second string begins the character sequence of the first. -/
def jsStartsWith (s pre : String) : Bool := pre.data.isPrefixOf s.data

/-- Fixed version identifier: `LUIS_APP_VERSION`, the string `1.0`. -/
def LUIS_APP_VERSION : String := "1.0"

/-- One element of the provider version listing (`res.data` entry in
`getRemoteVersion`). -/
structure VersionInfo where
  version : String
  lastModifiedDateTime : String
deriving DecidableEq

/-- The JavaScript value held by `currentVersion`: the object found by
`_.find`, the `undefined` of a find miss, or the empty array returned by
the `catch` branch of `getRemoteVersion`. -/
inductive RemoteVersionValue where
  | found (v : VersionInfo)
  | undefinedValue
  | emptyArr
deriving DecidableEq

/-- JS truthiness of the `currentVersion` value (`if (currentVersion)`):
objects and arrays are truthy, `undefined` is falsy. -/
def RemoteVersionValue.truthy : RemoteVersionValue → Bool
  | .found _ => true
  | .undefinedValue => false
  | .emptyArr => true

/-- A thrown JS error: its `.message` plus the optional structured detail
that `_.get(err, ...)` reads at `response.data.error.message`. -/
structure JsError where
  message : String
  responseDetail : Option String
deriving DecidableEq

/-- The TypeError raised by reading `.lastModifiedDateTime` off `undefined`. -/
def typeErrorLastModified : JsError :=
  { message := "Cannot read property \x27lastModifiedDateTime\x27 of undefined"
    responseDetail := none }

/-- The JS property read `remoteVersion.lastModifiedDateTime`: a string on
the found object, `undefined` (`none`) on the empty array, a TypeError on
`undefined`. -/
def RemoteVersionValue.lastModified : RemoteVersionValue → Except JsError (Option String)
  | .found v => .ok (some v.lastModifiedDateTime)
  | .emptyArr => .ok none
  | .undefinedValue => .error typeErrorLastModified

/-- The value stored in the KVS under `LUIS_HASH_KVS_KEY`: `{hash, time}`.
`time` is an `Option` because `onSyncSuccess` stores whatever
`.lastModifiedDateTime` reads, which can be `undefined`. -/
structure Metadata where
  hash : String
  time : Option String
deriving DecidableEq

/-- Entity declarations attached to an intent are never inspected by the
provider: they are only handed through to the parser. -/
abbrev EntityDecl := String

/-- A locally stored intent (an element of `storage.getIntents()`). -/
structure Intent where
  name : String
  utterances : List String
  entities : List EntityDecl
deriving DecidableEq

/-- One entity label produced by the parser; `stop` models the source
field `label.end` (`end` is reserved in Lean). -/
structure Label where
  type : String
  start : Int
  stop : Int
deriving DecidableEq

/-- Result of `parser.extractLabelsFromCanonical(utterance, entities)`. -/
structure Extraction where
  text : String
  labels : List Label
deriving DecidableEq

/-- One entry of the `Entities` registry; `luis` models the optional
provider-native name stored under the `@luis` key of the entry. -/
structure EntityInfo where
  luis : Option String
deriving DecidableEq

/-- External collaborators injected into the provider: the corpus digest
(md5 of the JSON serialization), the canonical-label parser, and the
`Entities` registry imported from a sibling module. -/
structure Deps where
  digest : List Intent → String
  extractLabels : String → List EntityDecl → Extraction
  entities : String → Option EntityInfo

/-- App metadata returned by `getAppInfo` (`response.data`). -/
structure AppInfo where
  name : String
  description : String
  culture : String
deriving DecidableEq

/-- The `details` object of one submodel in a poll response. -/
structure SubDetails where
  status : String
  failureReason : Option String
deriving DecidableEq

/-- One submodel entry of a training poll response.  The code reads the
top-level `status` (for the `Fail` check), `details.status` (for the
progress count), `modelId` and `details.failureReason`. -/
structure SubModel where
  modelId : String
  status : Option String
  details : SubDetails
deriving DecidableEq

/-- Scripted storage and gateway responses for one `sync()` run: what the
KVS holds, what each HTTP call would return.  `Except.error` means the
call rejects (transport or provider failure). -/
structure Script where
  intents : List Intent
  kvs : Option Metadata
  appId : String
  versionsResp : Except Unit (List VersionInfo)
  appInfoResp : Except Unit AppInfo
  importResp : Except JsError String
  trainStartResp : Except JsError String
  pollResps : List (List SubModel)
  publishResp : Except JsError Unit
  versionsResp2 : Except Unit (List VersionInfo)

/-- `getRemoteVersion()`: on transport failure the catch branch returns
the empty array; otherwise `_.find(res.data, {version: LUIS_APP_VERSION})`
yields the found object or `undefined`. -/
def getRemoteVersion (resp : Except Unit (List VersionInfo)) : RemoteVersionValue :=
  match resp with
  | .error _ => .emptyArr
  | .ok vs =>
    match vs.find? (fun v => v.version == LUIS_APP_VERSION) with
    | some v => .found v
    | none => .undefinedValue

/-- `isInSync(localIntents, remoteVersion)`: evaluates
`metadata && metadata.hash === intentsHash &&
metadata.time === remoteVersion.lastModifiedDateTime`
with JS short-circuiting — the timestamp property is read only after the
first two conjuncts hold, and that read can throw a TypeError. -/
def isInSync (digest : List Intent → String) (kvs : Option Metadata)
    (localIntents : List Intent) (remoteVersion : RemoteVersionValue) :
    Except JsError Bool :=
  let intentsHash := digest localIntents
  match kvs with
  | none => .ok false
  | some metadata =>
    if metadata.hash == intentsHash then
      match remoteVersion.lastModified with
      | .error e => .error e
      | .ok t => .ok (metadata.time == t)
    else .ok false

/-- `onSyncSuccess(localIntents, remoteVersion)`: the metadata value that
would be stored; reading `.lastModifiedDateTime` can itself throw. -/
def onSyncSuccess (digest : List Intent → String) (localIntents : List Intent)
    (remoteVersion : RemoteVersionValue) : Except JsError Metadata :=
  match remoteVersion.lastModified with
  | .error e => .error e
  | .ok t => .ok { hash := digest localIntents, time := t }

/-- The construction error thrown for a registry miss or a type without
the `@native.` marker. -/
def unknownEntityError (t : String) : JsError :=
  { message := "[NLU::Luis] Unknown entity: " ++ t
      ++ ". Botpress NLU only supports native entities for now."
    responseDetail := none }

/-- The construction error thrown for a registry entry without a `@luis`
provider-native name. -/
def unsupportedEntityError (t : String) : JsError :=
  { message := "[NLU::Luis] LUIS doesn\x27t support entity of type " ++ t
    responseDetail := none }

/-- One entity span pushed onto an utterance of the payload. -/
structure EntOut where
  entity : String
  startPos : Int
  endPos : Int
deriving DecidableEq

/-- One utterance object pushed onto the payload. -/
structure UttOut where
  text : String
  intent : String
  entities : List EntOut
deriving DecidableEq

/-- The `if (builtinEntities.indexOf(name) === -1) builtinEntities.push(name)`
step: append a name unless it is already present. -/
def jsIns (acc : List String) (n : String) : List String :=
  if acc.contains n then acc else acc ++ [n]

/-- The inner `extracted.labels.forEach` loop: resolve each label through
the registry, threading the accumulated `builtinEntities` list; the first
unresolvable label throws. -/
def processLabels (reg : String → Option EntityInfo) :
    List Label → List String → Except JsError (List EntOut × List String)
  | [], bents => .ok ([], bents)
  | l :: ls, bents =>
    match reg l.type with
    | none => .error (unknownEntityError l.type)
    | some entity =>
      if jsStartsWith l.type "@native." then
        match entity.luis with
        | none => .error (unsupportedEntityError l.type)
        | some name =>
          match processLabels reg ls (jsIns bents name) with
          | .error e => .error e
          | .ok (es, b) =>
            .ok ({ entity := name, startPos := l.start, endPos := l.stop } :: es, b)
      else .error (unknownEntityError l.type)

/-- The `intent.utterances.forEach` loop for one intent: extract each
utterance, resolve its labels, and push the utterance object. -/
def processUtts (deps : Deps) (intent : Intent) :
    List String → List String → Except JsError (List UttOut × List String)
  | [], bents => .ok ([], bents)
  | u :: us, bents =>
    let extracted := deps.extractLabels u intent.entities
    match processLabels deps.entities extracted.labels bents with
    | .error e => .error e
    | .ok (es, bents') =>
      match processUtts deps intent us bents' with
      | .error e => .error e
      | .ok (uts, b) =>
        .ok ({ text := extracted.text, intent := intent.name, entities := es } :: uts, b)

/-- The outer `intents.forEach` loop. -/
def processIntents (deps : Deps) :
    List Intent → List String → Except JsError (List UttOut × List String)
  | [], bents => .ok ([], bents)
  | i :: is, bents =>
    match processUtts deps i i.utterances bents with
    | .error e => .error e
    | .ok (uts, bents') =>
      match processIntents deps is bents' with
      | .error e => .error e
      | .ok (uts', b) => .ok (uts ++ uts', b)

/-- Payload construction: the flattened utterance list and the accumulated
`builtinEntities` list, starting from the two empty arrays. -/
def buildModel (deps : Deps) (intents : List Intent) :
    Except JsError (List UttOut × List String) :=
  processIntents deps intents []

/-- The provider-native model document (`body`) posted to the import
endpoint. -/
structure Payload where
  luis_schema_version : String
  versionId : String
  name : String
  desc : String
  culture : String
  intents : List String
  entities : List String
  composites : List String
  closedLists : List String
  bing_entities : List String
  model_features : List String
  regex_features : List String
  utterances : List UttOut
deriving DecidableEq

/-- Remote calls and KVS writes emitted during a run, in order. -/
inductive Action where
  | deleteCall
  | importCall (body : Payload)
  | trainStartCall
  | pollCall
  | publishCall
  | kvsSet (md : Metadata)
deriving DecidableEq

/-- Whether an action is the import POST. -/
def Action.isImport : Action → Bool
  | .importCall _ => true
  | _ => false

/-- Whether an action is the fingerprint-store write. -/
def Action.isKvsSet : Action → Bool
  | .kvsSet _ => true
  | _ => false

/-- Whether an action is a training-status poll. -/
def Action.isPoll : Action → Bool
  | .pollCall => true
  | _ => false

/-- Whether an action is the publish POST. -/
def Action.isPublish : Action → Bool
  | .publishCall => true
  | _ => false

/-- JS string coercion of a possibly-`undefined` value, as performed by
string concatenation. -/
def jsCoerceString : Option String → String
  | some s => s
  | none => "undefined"

/-- JS `||` on strings: the left operand unless it is falsy (empty). -/
def jsOr (a b : String) : String := if a == "" then b else a

/-- The training-failure error:
`Error training model "<modelId>", reason is "<details.failureReason>"`. -/
def trainFailError (m : SubModel) : JsError :=
  { message := "[NLU::Luis] Error training model \"" ++ m.modelId
      ++ "\", reason is \"" ++ jsCoerceString m.details.failureReason ++ "\""
    responseDetail := none }

/-- `(models.length - countInProgress) / models.length` as a JS number.
The only reachable division by zero is `0/0` (the filtered count of an
empty list is zero), which is `NaN`, modelled as `none`. -/
def trainPercent (models : List SubModel) : Option ℚ :=
  let c := (models.filter (fun m => m.details.status == "InProgress")).length
  if models.length = 0 then none
  else some (((models.length : ℚ) - (c : ℚ)) / (models.length : ℚ))

/-- The `percent >= 1` test; `NaN >= 1` is false in JS. -/
def geOne : Option ℚ → Bool
  | none => false
  | some q => decide (1 ≤ q)

/-- Outcome of the training phase. -/
inductive TrainOut where
  | ok
  | err (e : JsError)
  | diverged
deriving DecidableEq

/-- The `while (true)` poll loop of `train()`, driven by the finite script
of poll responses; running off the end of the script models an infinite
loop (`diverged`).  Returns emitted actions, log lines and outcome. -/
def pollLoop : List (List SubModel) → List Action × List String × TrainOut
  | [] => ([], [], .diverged)
  | models :: rest =>
    match models.find? (fun m => m.status == some "Fail") with
    | some error => ([.pollCall], [], .err (trainFailError error))
    | none =>
      if geOne (trainPercent models) then
        ([.pollCall], ["[NLU::Luis] Model trained (100%)"], .ok)
      else
        let r := pollLoop rest
        (.pollCall :: r.1, "[NLU::Luis] Training..." :: r.2.1, r.2.2)

/-- `train()`: kick off training (which must acknowledge `Queued`), poll
to completion, then publish. -/
def train (s : Script) : List Action × List String × TrainOut :=
  match s.trainStartResp with
  | .error e => ([.trainStartCall], [], .err e)
  | .ok status =>
    if status == "Queued" then
      let r := pollLoop s.pollResps
      match r.2.2 with
      | .ok =>
        match s.publishResp with
        | .ok _ => (.trainStartCall :: r.1 ++ [.publishCall], r.2.1, .ok)
        | .error e => (.trainStartCall :: r.1 ++ [.publishCall], r.2.1, .err e)
      | out => (.trainStartCall :: r.1, r.2.1, out)
    else
      ([.trainStartCall], [],
        .err { message := "Expected training to be Queued but was: " ++ status
               responseDetail := none })

/-- How a `sync()` run ends: a normal return, a raised error reaching the
caller, or the non-terminating poll loop. -/
inductive Outcome where
  | finished
  | raised (e : JsError)
  | diverged
deriving DecidableEq

/-- Observable result of one `sync()` run. -/
structure SyncResult where
  actions : List Action
  logs : List String
  kvs : Option Metadata
  outcome : Outcome
deriving DecidableEq

/-- The catch-branch log line:
`headText + detailedError || (err && err.message)` where `headText` is the
could-not-sync text.
In JS, `+` binds tighter than `||`, so the right operand is reachable only
when the concatenated string is empty, which never happens. -/
def catchLog (e : JsError) : String :=
  jsOr ("[NLU::Luis] Could not sync the model. Error = " ++ jsCoerceString e.responseDetail)
    e.message

/-- `sync()`: the full orchestration run over scripted responses,
returning the emitted actions, logs, resulting KVS content and outcome. -/
def sync (deps : Deps) (s : Script) : SyncResult :=
  let intents := s.intents
  let currentVersion := getRemoteVersion s.versionsResp
  match isInSync deps.digest s.kvs intents currentVersion with
  | .error e => { actions := [], logs := [], kvs := s.kvs, outcome := .raised e }
  | .ok true =>
    { actions := [], logs := ["[NLU::Luis] Model is up to date"], kvs := s.kvs,
      outcome := .finished }
  | .ok false =>
    let logs0 := ["[NLU::Luis] The model needs to be updated"]
    let acts1 : List Action := if currentVersion.truthy then [.deleteCall] else []
    let logs1 := if currentVersion.truthy
      then logs0 ++ ["[NLU::Luis] Deleting old version of the model"] else logs0
    match buildModel deps intents with
    | .error e => { actions := acts1, logs := logs1, kvs := s.kvs, outcome := .raised e }
    | .ok (utterances, builtinEntities) =>
      match s.appInfoResp with
      | .error _ =>
        { actions := acts1, logs := logs1, kvs := s.kvs,
          outcome := .raised { message := "[NLU::Luis] Could not find app " ++ s.appId
                               responseDetail := none } }
      | .ok appInfo =>
        let body : Payload :=
          { luis_schema_version := "2.1.0"
            versionId := LUIS_APP_VERSION
            name := appInfo.name
            desc := appInfo.description
            culture := appInfo.culture
            intents := intents.map (fun i => i.name)
            entities := []
            composites := []
            closedLists := []
            bing_entities := builtinEntities
            model_features := []
            regex_features := []
            utterances := utterances }
        match s.importResp with
        | .error e =>
          { actions := acts1 ++ [.importCall body], logs := logs1 ++ [catchLog e]
            kvs := s.kvs, outcome := .finished }
        | .ok resultData =>
          let t := train s
          match t.2.2 with
          | .diverged =>
            { actions := acts1 ++ [.importCall body] ++ t.1, logs := logs1 ++ t.2.1
              kvs := s.kvs, outcome := .diverged }
          | .err e =>
            { actions := acts1 ++ [.importCall body] ++ t.1
              logs := logs1 ++ t.2.1 ++ [catchLog e], kvs := s.kvs, outcome := .finished }
          | .ok =>
            match onSyncSuccess deps.digest intents (getRemoteVersion s.versionsResp2) with
            | .error e =>
              { actions := acts1 ++ [.importCall body] ++ t.1
                logs := logs1 ++ t.2.1 ++ [catchLog e], kvs := s.kvs, outcome := .finished }
            | .ok md =>
              { actions := acts1 ++ [.importCall body] ++ t.1 ++ [.kvsSet md]
                logs := logs1 ++ t.2.1
                  ++ ["[NLU::Luis] Synced model [" ++ resultData ++ "]"]
                kvs := some md, outcome := .finished }

/-- Specification-side list of distinct names in order of first
appearance: keep the head, drop its later duplicates, recurse. -/
def firstOccDedup : List String → List String
  | [] => []
  | x :: xs => x :: firstOccDedup (xs.filter (fun y => !(y == x)))
termination_by l => l.length
decreasing_by
  simp only [List.length_cons, Nat.lt_succ_iff]
  exact List.length_filter_le _ _

/-- The provider-native names referenced by the labels of one label list,
in traversal order (resolution through the registry). -/
def labelNames (reg : String → Option EntityInfo) (ls : List Label) : List String :=
  ls.filterMap (fun l => (reg l.type).bind (fun e => e.luis))

/-- The provider-native names referenced anywhere in the corpus, in
intent/utterance/label traversal order. -/
def refNames (deps : Deps) (intents : List Intent) : List String :=
  (intents.map (fun i =>
    (i.utterances.map (fun u =>
      labelNames deps.entities (deps.extractLabels u i.entities).labels)).flatten)).flatten

/-! ### Concrete fixtures used in closed runs -/

/-- A trivial digest for concrete runs. -/
def exDigest : List Intent → String := fun _ => "h"

/-- Collaborators whose parser produces no labels. -/
def exDeps : Deps :=
  { digest := exDigest
    extractLabels := fun u _ => { text := u, labels := [] }
    entities := fun _ => none }

/-- Collaborators whose parser labels every utterance with a type the
registry does not know. -/
def exDepsBad : Deps :=
  { digest := exDigest
    extractLabels := fun u _ =>
      { text := u, labels := [{ type := "unknown.type", start := 0, stop := 1 }] }
    entities := fun _ => none }

/-- Registry with two native LUIS-supported types. -/
def exReg : String → Option EntityInfo := fun t =>
  if t == "@native.time" then some { luis := some "builtin.datetime" }
  else if t == "@native.number" then some { luis := some "builtin.number" }
  else none

/-- A label of native time type. -/
def exLabelTime : Label := { type := "@native.time", start := 0, stop := 1 }

/-- A label of native number type. -/
def exLabelNumber : Label := { type := "@native.number", start := 1, stop := 2 }

/-- Collaborators for the deduplication run: every utterance references
time, number, then time again. -/
def exDepsDedup : Deps :=
  { digest := exDigest
    extractLabels := fun u _ =>
      { text := u, labels := [exLabelTime, exLabelNumber, exLabelTime] }
    entities := exReg }

/-- A one-utterance intent. -/
def exIntent : Intent := { name := "greet", utterances := ["hi"], entities := [] }

/-- Base script: empty fingerprint store, no remote version, all remote
calls succeed. -/
def exScript : Script :=
  { intents := []
    kvs := none
    appId := "app1"
    versionsResp := .ok []
    appInfoResp := .ok { name := "bot", description := "d", culture := "en-us" }
    importResp := .ok "ok"
    trainStartResp := .ok "Queued"
    pollResps := []
    publishResp := .ok ()
    versionsResp2 := .ok [{ version := "1.0", lastModifiedDateTime := "T2" }] }

/-- Script whose training kickoff rejects. -/
def exScriptTrainStartFail : Script :=
  { exScript with trainStartResp := .error { message := "boom", responseDetail := none } }

/-- Script whose import rejects with a transport error carrying no
structured provider detail. -/
def exScriptImportFail : Script :=
  { exScript with
      importResp := .error { message := "Network Error", responseDetail := none } }

/-- Script whose version listing suffers a transport failure (and whose
subsequent import rejects, ending the run early). -/
def exScriptLookupFail : Script :=
  { exScript with
      versionsResp := .error ()
      importResp := .error { message := "Network Error", responseDetail := none } }

/-- Script whose training kickoff acknowledges with a non-`Queued` status. -/
def exScriptNotQueued : Script :=
  { exScript with trainStartResp := .ok "InProgress" }

/-- Script holding the one-utterance intent. -/
def exScriptOneIntent : Script := { exScript with intents := [exIntent] }

/-- A submodel reporting failure. -/
def exFailModel : SubModel :=
  { modelId := "submodelX", status := some "Fail"
    details := { status := "Fail", failureReason := some "reason" } }

/-- A submodel that finished training. -/
def exDoneModel : SubModel :=
  { modelId := "m1", status := none
    details := { status := "UpToDate", failureReason := none } }

/-- Registry entry that is LUIS-supported but whose type identifier lacks
the `@native.` marker. -/
def exRegSys : String → Option EntityInfo := fun t =>
  if t == "sys.time" then some { luis := some "builtin.datetime" } else none

/-- A label of the registry-known, LUIS-supported, non-native type. -/
def exLabelSys : Label := { type := "sys.time", start := 0, stop := 1 }

/-! ### Theorems -/

/-- C1 (counterexample): with a stored fingerprint whose hash matches the
digest, (a) a remote version absent from a successful listing makes
`isInSync` throw a TypeError instead of reporting that sync is needed,
and (b) the transport-failure descriptor together with a stored undefined
timestamp is reported as in sync, although the claim counts an absent
remote timestamp as a mismatch. -/
theorem isInSync_claim_counterexample :
    (isInSync (fun _ => "h") (some { hash := "h", time := some "t" }) []
        RemoteVersionValue.undefinedValue = .error typeErrorLastModified
      ∧ isInSync (fun _ => "h") (some { hash := "h", time := some "t" }) []
        RemoteVersionValue.undefinedValue ≠ .ok false)
    ∧ isInSync (fun _ => "h") (some { hash := "h", time := none }) []
        RemoteVersionValue.emptyArr = .ok true := by
  refine ⟨⟨rfl, ?_⟩, rfl⟩
  decide

/-- C1 (amended): the run is reported in sync exactly when a fingerprint
exists, its hash equals the digest of the corpus, and its stored
timestamp equals the timestamp read from the remote descriptor (the
transport-failure empty array reads as an undefined timestamp); and
`isInSync` raises exactly when the fingerprint exists with matching hash
while the remote version is `undefined`, in which case the TypeError
escapes instead of a decision. -/
theorem isInSync_decision_characterization (digest : List Intent → String)
    (kvs : Option Metadata) (intents : List Intent) (rv : RemoteVersionValue) :
    (isInSync digest kvs intents rv = .ok true ↔
      ∃ md t, kvs = some md ∧ md.hash = digest intents ∧
        rv.lastModified = .ok t ∧ md.time = t)
    ∧ (∀ e, isInSync digest kvs intents rv = .error e ↔
      (e = typeErrorLastModified ∧ rv = .undefinedValue ∧
        ∃ md, kvs = some md ∧ md.hash = digest intents)) := by
  cases kvs with
  | none => simp [isInSync]
  | some md =>
    by_cases hh : md.hash = digest intents
    · cases rv with
      | found v => simp [isInSync, RemoteVersionValue.lastModified, hh]
      | undefinedValue =>
        simp [isInSync, RemoteVersionValue.lastModified, hh]
        exact fun e => eq_comm
      | emptyArr => simp [isInSync, RemoteVersionValue.lastModified, hh]
    · cases rv <;>
        simp [isInSync, RemoteVersionValue.lastModified, hh]

/-- C1 witness: a stored fingerprint matching both the digest and the
found remote timestamp is reported in sync. -/
theorem isInSync_decision_characterization_witness :
    isInSync exDigest (some { hash := "h", time := some "T2" }) []
      (RemoteVersionValue.found { version := "1.0", lastModifiedDateTime := "T2" })
      = .ok true :=
  (isInSync_decision_characterization exDigest
      (some { hash := "h", time := some "T2" }) []
      (RemoteVersionValue.found { version := "1.0", lastModifiedDateTime := "T2" })).1.mpr
    ⟨{ hash := "h", time := some "T2" }, some "T2", rfl, rfl, rfl, rfl⟩

/-- Every action emitted by the poll loop is a poll call. -/
theorem pollLoop_actions_pollCall (polls : List (List SubModel)) :
    ∀ a ∈ (pollLoop polls).1, a = Action.pollCall := by
  induction polls with
  | nil => simp [pollLoop]
  | cons ms rest ih =>
    intro a ha
    rw [pollLoop] at ha
    cases hf : ms.find? (fun m => m.status == some "Fail") with
    | some m =>
      rw [hf] at ha
      simpa using ha
    | none =>
      rw [hf] at ha
      by_cases hg : geOne (trainPercent ms)
      · simp [hg] at ha
        simp [ha]
      · simp [hg] at ha
        rcases ha with h | h
        · simp [h]
        · exact ih a h

/-- The poll loop emits no action other than poll calls (counting form). -/
theorem pollLoop_countP_eq_zero (polls : List (List SubModel)) (p : Action → Bool)
    (hp : p Action.pollCall = false) : (pollLoop polls).1.countP p = 0 := by
  rw [List.countP_eq_zero]
  intro a ha
  rw [pollLoop_actions_pollCall polls a ha]
  simp [hp]

/-- `train` emits only kickoff, poll and publish calls (counting form). -/
theorem train_countP_eq_zero (s : Script) (p : Action → Bool)
    (h1 : p Action.trainStartCall = false) (h2 : p Action.pollCall = false)
    (h3 : p Action.publishCall = false) : (train s).1.countP p = 0 := by
  rw [List.countP_eq_zero]
  intro a ha
  cases hst : s.trainStartResp with
  | error e =>
    simp only [train, hst] at ha
    simp at ha
    simp [ha, h1]
  | ok st =>
    by_cases hq : (st == "Queued") = true
    · cases hpoll : (pollLoop s.pollResps).2.2 with
      | ok =>
        cases hpub : s.publishResp with
        | ok u =>
          simp only [train, hst, hq, if_true, hpoll, hpub] at ha
          simp at ha
          rcases ha with h | h | h
          · simp [h, h1]
          · rw [pollLoop_actions_pollCall s.pollResps a h]
            simp [h2]
          · simp [h, h3]
        | error e =>
          simp only [train, hst, hq, if_true, hpoll, hpub] at ha
          simp at ha
          rcases ha with h | h | h
          · simp [h, h1]
          · rw [pollLoop_actions_pollCall s.pollResps a h]
            simp [h2]
          · simp [h, h3]
      | err e =>
        simp only [train, hst, hq, if_true, hpoll] at ha
        simp at ha
        rcases ha with h | h
        · simp [h, h1]
        · rw [pollLoop_actions_pollCall s.pollResps a h]
          simp [h2]
      | diverged =>
        simp only [train, hst, hq, if_true, hpoll] at ha
        simp at ha
        rcases ha with h | h
        · simp [h, h1]
        · rw [pollLoop_actions_pollCall s.pollResps a h]
          simp [h2]
    · simp only [train, hst, if_neg hq] at ha
      simp at ha
      simp [ha, h1]

/-- The success test `percent >= 1` passes exactly on a non-empty
submodel list with no submodel in progress. -/
theorem geOne_trainPercent_iff (ms : List SubModel) :
    geOne (trainPercent ms) = true ↔
      ms ≠ [] ∧ (ms.filter (fun m => m.details.status == "InProgress")).length = 0 := by
  by_cases hms : ms = []
  · subst hms
    simp [trainPercent, geOne]
  · have hlen : ms.length ≠ 0 := by simpa [List.length_eq_zero] using hms
    have hpos : (0 : ℚ) < (ms.length : ℚ) := by
      exact_mod_cast Nat.pos_of_ne_zero hlen
    simp only [trainPercent, geOne, if_neg hlen, decide_eq_true_eq]
    rw [one_le_div hpos, le_sub_self_iff, Nat.cast_nonpos]
    exact ⟨fun h => ⟨hms, h⟩, fun h => h.2⟩

/-- C3: whenever a poll response contains a submodel whose status reports
`Fail` (`_.find(models, {status: \x27Fail\x27})` hits), the loop raises on
that same iteration the training error carrying that submodel identifier
and its provider-supplied failure reason, regardless of the progress
value, and the surrounding `train` run never reaches the publish call and
never succeeds. -/
theorem pollLoop_failure_raises (models : List SubModel) (rest : List (List SubModel))
    (m : SubModel)
    (hfind : models.find? (fun x => x.status == some "Fail") = some m) :
    m.status = some "Fail"
    ∧ pollLoop (models :: rest) = ([Action.pollCall], [], .err (trainFailError m))
    ∧ (trainFailError m).message =
        "[NLU::Luis] Error training model \"" ++ m.modelId ++ "\", reason is \""
          ++ jsCoerceString m.details.failureReason ++ "\""
    ∧ (∀ s : Script, s.pollResps = models :: rest →
        (train s).1.countP Action.isPublish = 0 ∧ (train s).2.2 ≠ .ok) := by
  have hm : m.status = some "Fail" := by
    have := List.find?_some hfind
    simpa using this
  have hpl : pollLoop (models :: rest) = ([Action.pollCall], [], .err (trainFailError m)) := by
    rw [pollLoop, hfind]
  refine ⟨hm, hpl, rfl, ?_⟩
  intro s hs
  constructor
  · cases hst : s.trainStartResp with
    | error e => simp [train, hst, Action.isPublish]
    | ok st =>
      by_cases hq : (st == "Queued") = true
      · simp only [train, hst, hq, if_true, hs, hpl]
        simp [Action.isPublish]
      · simp only [train, hst, if_neg hq]
        simp [Action.isPublish]
  · cases hst : s.trainStartResp with
    | error e => simp [train, hst]
    | ok st =>
      by_cases hq : (st == "Queued") = true
      · simp only [train, hst, hq, if_true, hs, hpl]
        simp
      · simp only [train, hst, if_neg hq]
        simp

/-- C3 witness: a poll response whose only submodel reports `Fail` with
reason `"reason"` makes the loop return the corresponding training error. -/
theorem pollLoop_failure_raises_witness :
    pollLoop [[exFailModel]] = ([Action.pollCall], [], .err (trainFailError exFailModel)) :=
  (pollLoop_failure_raises [exFailModel] [] exFailModel (by decide)).2.1

/-- C9: a label whose type is present in the registry and carries a
provider-native `@luis` name, but whose identifier does not start with
`@native.`, still aborts payload construction with the unknown-entity
error: registry membership alone is not sufficient. -/
theorem processLabels_native_marker_required (reg : String → Option EntityInfo)
    (info : EntityInfo) (nm : String) (l : Label) (ls : List Label) (bents : List String)
    (hreg : reg l.type = some info) (hsup : info.luis = some nm)
    (hpre : jsStartsWith l.type "@native." = false) :
    processLabels reg (l :: ls) bents = .error (unknownEntityError l.type) := by
  simp [processLabels, hreg, hpre]

/-- C9 witness: the concrete type `sys.time`, known to the registry and
LUIS-supported, is still rejected as unknown. -/
theorem processLabels_native_marker_required_witness :
    processLabels exRegSys [exLabelSys] [] = .error (unknownEntityError "sys.time") :=
  processLabels_native_marker_required exRegSys { luis := some "builtin.datetime" }
    "builtin.datetime" exLabelSys [] [] (by decide) rfl (by decide)

/-- C10: the success exit test of the poll loop passes exactly on a
non-empty submodel list with no submodel in progress; an empty response
list yields the undefined (`NaN`) progress ratio, which never satisfies
the test, so a run in which every poll response is empty consumes the
whole script without terminating. -/
theorem pollLoop_success_and_empty_divergence (ms : List SubModel)
    (polls : List (List SubModel)) :
    (geOne (trainPercent ms) = true ↔
      ms ≠ [] ∧ (ms.filter (fun m => m.details.status == "InProgress")).length = 0)
    ∧ trainPercent ([] : List SubModel) = none
    ∧ ((∀ r ∈ polls, r = ([] : List SubModel)) → (pollLoop polls).2.2 = .diverged) := by
  refine ⟨geOne_trainPercent_iff ms, rfl, ?_⟩
  induction polls with
  | nil =>
    intro _
    simp [pollLoop]
  | cons r rest ih =>
    intro hall
    have hr : r = [] := hall r (by simp)
    subst hr
    have hrest : ∀ x ∈ rest, x = ([] : List SubModel) := fun x hx => hall x (by simp [hx])
    rw [pollLoop]
    simpa [trainPercent, geOne] using ih hrest

/-- C10 witness: one finished submodel passes the success test, and the
all-empty two-poll script is consumed without termination. -/
theorem pollLoop_success_and_empty_divergence_witness :
    geOne (trainPercent [exDoneModel]) = true
    ∧ (pollLoop [[], []]).2.2 = .diverged :=
  ⟨(pollLoop_success_and_empty_divergence [exDoneModel] [[], []]).1.mpr (by decide),
    (pollLoop_success_and_empty_divergence [exDoneModel] [[], []]).2.2 (by decide)⟩

/-- C7: if the training kickoff acknowledges with any status other than
`Queued`, `train` raises the unexpected-state error naming that status,
and the surrounding run performs no poll, no publish and no fingerprint
write, leaves the stored fingerprint unchanged, and terminates. -/
theorem train_requires_queued (deps : Deps) (s : Script) (st : String)
    (hst : s.trainStartResp = .ok st) (hq : st ≠ "Queued") :
    train s = ([Action.trainStartCall], [],
        .err { message := "Expected training to be Queued but was: " ++ st
               responseDetail := none })
    ∧ (sync deps s).actions.countP Action.isPoll = 0
    ∧ (sync deps s).actions.countP Action.isPublish = 0
    ∧ (sync deps s).actions.countP Action.isKvsSet = 0
    ∧ (sync deps s).kvs = s.kvs
    ∧ (sync deps s).outcome ≠ Outcome.diverged := by
  have hbeq : (st == "Queued") = false := beq_eq_false_iff_ne.mpr hq
  have htr : train s = ([Action.trainStartCall], [],
      .err { message := "Expected training to be Queued but was: " ++ st
             responseDetail := none }) := by
    simp [train, hst, hbeq]
  refine ⟨htr, ?_⟩
  simp only [sync]
  repeat' split
  all_goals
    simp_all [List.countP_append, List.countP_cons, List.countP_nil,
      Action.isPoll, Action.isPublish, Action.isKvsSet]

/-- C7 witness: a concrete run whose kickoff acknowledges `InProgress`. -/
theorem train_requires_queued_witness :
    train exScriptNotQueued = ([Action.trainStartCall], [],
        .err { message := "Expected training to be Queued but was: InProgress"
               responseDetail := none })
    ∧ (sync exDeps exScriptNotQueued).actions.countP Action.isKvsSet = 0 :=
  ⟨(train_requires_queued exDeps exScriptNotQueued "InProgress" rfl (by decide)).1,
    (train_requires_queued exDeps exScriptNotQueued "InProgress" rfl (by decide)).2.2.2.1⟩

/-- If the training phase succeeded, the publish call was answered
positively. -/
theorem train_ok_publish_ok (s : Script) (h : (train s).2.2 = .ok) :
    ∃ u, s.publishResp = .ok u := by
  cases hst : s.trainStartResp with
  | error e => simp [train, hst] at h
  | ok st =>
    by_cases hqq : (st == "Queued") = true
    · cases hpoll : (pollLoop s.pollResps).2.2 with
      | ok =>
        cases hp : s.publishResp with
        | ok u => exact ⟨u, rfl⟩
        | error e => simp [train, hst, hqq, hpoll, hp] at h
      | err e => simp [train, hst, hqq, hpoll] at h
      | diverged => simp [train, hst, hqq, hpoll] at h
    · simp [train, hst, hqq] at h

/-- C2: the fingerprint store is written at most once per run; a write
happens only on a run in which the import succeeded, the whole training
phase reported success, and the publish call succeeded; and a run in
which the import or the training phase (kickoff, polling or publish)
fails keeps the stored fingerprint unchanged and performs no write. -/
theorem sync_fingerprint_write_gated (deps : Deps) (s : Script) :
    (sync deps s).actions.countP Action.isKvsSet ≤ 1
    ∧ (0 < (sync deps s).actions.countP Action.isKvsSet →
        (∃ r, s.importResp = .ok r) ∧ (train s).2.2 = .ok
          ∧ ∃ u, s.publishResp = .ok u)
    ∧ (((∀ r, s.importResp ≠ .ok r) ∨ (train s).2.2 ≠ .ok) →
        (sync deps s).kvs = s.kvs
          ∧ (sync deps s).actions.countP Action.isKvsSet = 0) := by
  by_cases htok : (train s).2.2 = TrainOut.ok
  · obtain ⟨u, hu⟩ := train_ok_publish_ok s htok
    simp only [sync]
    repeat' split
    all_goals
      simp_all [List.countP_append, List.countP_cons, List.countP_nil,
        Action.isKvsSet, train_countP_eq_zero s Action.isKvsSet rfl rfl rfl]
  · simp only [sync]
    repeat' split
    all_goals
      simp_all [List.countP_append, List.countP_cons, List.countP_nil,
        Action.isKvsSet, train_countP_eq_zero s Action.isKvsSet rfl rfl rfl]

/-- C2 witness: a run whose training kickoff rejects keeps the
fingerprint store untouched. -/
theorem sync_fingerprint_write_gated_witness :
    (sync exDeps exScriptTrainStartFail).kvs = exScriptTrainStartFail.kvs
    ∧ (sync exDeps exScriptTrainStartFail).actions.countP Action.isKvsSet = 0 :=
  (sync_fingerprint_write_gated exDeps exScriptTrainStartFail).2.2
    (Or.inr (by decide))

/-- If the label loop succeeds, every traversed label resolved to a
registry entry carrying a provider-native name. -/
theorem processLabels_ok_resolves (reg : String → Option EntityInfo) :
    ∀ (ls : List Label) (bents : List String) (r : List EntOut × List String),
      processLabels reg ls bents = .ok r →
      ∀ l ∈ ls, ∃ info nm, reg l.type = some info ∧ info.luis = some nm := by
  intro ls
  induction ls with
  | nil =>
    intro bents r h l hl
    simp at hl
  | cons l0 ls ih =>
    intro bents r h l hl
    cases hreg : reg l0.type with
    | none =>
      simp only [processLabels, hreg] at h
      exact Except.noConfusion h
    | some info =>
      by_cases hpre : jsStartsWith l0.type "@native." = true
      · cases hsup : info.luis with
        | none =>
          simp only [processLabels, hreg, if_pos hpre, hsup] at h
          exact Except.noConfusion h
        | some nm =>
          cases hrec : processLabels reg ls (jsIns bents nm) with
          | error e =>
            simp only [processLabels, hreg, if_pos hpre, hsup, hrec] at h
            exact Except.noConfusion h
          | ok r0 =>
            rcases List.mem_cons.mp hl with rfl | hmem
            · exact ⟨info, nm, hreg, hsup⟩
            · exact ih _ r0 hrec l hmem
      · simp only [processLabels, hreg, if_neg hpre] at h
        exact Except.noConfusion h

/-- If the utterance loop of one intent succeeds, every label of every
extracted utterance resolved. -/
theorem processUtts_ok_resolves (deps : Deps) (intent : Intent) :
    ∀ (us : List String) (bents : List String) (r : List UttOut × List String),
      processUtts deps intent us bents = .ok r →
      ∀ u ∈ us, ∀ l ∈ (deps.extractLabels u intent.entities).labels,
        ∃ info nm, deps.entities l.type = some info ∧ info.luis = some nm := by
  intro us
  induction us with
  | nil =>
    intro bents r h u hu
    simp at hu
  | cons u0 us ih =>
    intro bents r h u hu
    cases hlab : processLabels deps.entities (deps.extractLabels u0 intent.entities).labels
        bents with
    | error e =>
      simp only [processUtts, hlab] at h
      exact Except.noConfusion h
    | ok r0 =>
      obtain ⟨es, bents'⟩ := r0
      cases hrec : processUtts deps intent us bents' with
      | error e =>
        simp only [processUtts, hlab, hrec] at h
        exact Except.noConfusion h
      | ok r1 =>
        rcases List.mem_cons.mp hu with rfl | hmem
        · exact fun l hl => processLabels_ok_resolves deps.entities _ _ _ hlab l hl
        · exact ih bents' r1 hrec u hmem

/-- If payload construction succeeds, every label of every utterance of
every intent resolved to a registry entry with a provider-native name. -/
theorem buildModel_ok_resolves (deps : Deps) :
    ∀ (intents : List Intent) (bents : List String) (r : List UttOut × List String),
      processIntents deps intents bents = .ok r →
      ∀ i ∈ intents, ∀ u ∈ i.utterances,
        ∀ l ∈ (deps.extractLabels u i.entities).labels,
          ∃ info nm, deps.entities l.type = some info ∧ info.luis = some nm := by
  intro intents
  induction intents with
  | nil =>
    intro bents r h i hi
    simp at hi
  | cons i0 is ih =>
    intro bents r h i hi
    cases hutt : processUtts deps i0 i0.utterances bents with
    | error e =>
      simp only [processIntents, hutt] at h
      exact Except.noConfusion h
    | ok r0 =>
      obtain ⟨uts, bents'⟩ := r0
      cases hrec : processIntents deps is bents' with
      | error e =>
        simp only [processIntents, hutt, hrec] at h
        exact Except.noConfusion h
      | ok r1 =>
        rcases List.mem_cons.mp hi with rfl | hmem
        · exact processUtts_ok_resolves deps i i.utterances bents _ hutt
        · exact ih bents' r1 hrec i hmem

/-- C4: a corpus containing a label whose type is unknown to the registry
or not LUIS-supported makes payload construction fail; on a run that is
not reported in sync, that construction error is the raised outcome of
`sync` (it propagates to the caller), and no import call is issued. -/
theorem sync_entity_rejection (deps : Deps) (s : Script)
    (hns : isInSync deps.digest s.kvs s.intents (getRemoteVersion s.versionsResp)
      = .ok false)
    (hbad : ∃ i ∈ s.intents, ∃ u ∈ i.utterances,
      ∃ l ∈ (deps.extractLabels u i.entities).labels,
        deps.entities l.type = none
        ∨ ∃ info, deps.entities l.type = some info ∧ info.luis = none) :
    (∃ e, buildModel deps s.intents = .error e ∧ (sync deps s).outcome = .raised e)
    ∧ (sync deps s).actions.countP Action.isImport = 0 := by
  have hbuild : ∀ r, buildModel deps s.intents ≠ .ok r := by
    intro r hr
    obtain ⟨i, hi, u, hu, l, hl, hbadl⟩ := hbad
    obtain ⟨info, nm, hinfo, hnm⟩ := buildModel_ok_resolves deps s.intents [] r hr i hi u hu l hl
    rcases hbadl with h0 | ⟨info', hinfo', hluis⟩
    · rw [h0] at hinfo
      exact Option.noConfusion hinfo
    · rw [hinfo'] at hinfo
      obtain rfl := Option.some.inj hinfo
      rw [hluis] at hnm
      exact Option.noConfusion hnm
  obtain ⟨e, he⟩ : ∃ e, buildModel deps s.intents = .error e := by
    cases hb : buildModel deps s.intents with
    | error e => exact ⟨e, rfl⟩
    | ok r => exact absurd hb (hbuild r)
  refine ⟨⟨e, he, ?_⟩, ?_⟩
  · simp only [sync, hns, he]
  · simp only [sync, hns, he]
    split <;> simp [List.countP_cons, Action.isImport]

/-- C4 witness: the one-intent corpus whose only label has a type the
registry does not know is rejected with no import call. -/
theorem sync_entity_rejection_witness :
    (sync exDepsBad exScriptOneIntent).actions.countP Action.isImport = 0 :=
  (sync_entity_rejection exDepsBad exScriptOneIntent rfl
    ⟨exIntent, by decide, "hi", by decide,
      { type := "unknown.type", start := 0, stop := 1 }, by decide, Or.inl rfl⟩).2

/-- C5 (code observation): an import failure is caught — the run finishes
normally, nothing is re-raised and the fingerprint store is untouched —
and the structured provider detail is used when present; but when the
detail is absent the log line is `... Error = undefined`: since `+` binds
tighter than `||` in the source, the concatenation is always truthy and
the documented fallback to `err.message` is dead code. -/
theorem sync_import_failure_log :
    (sync exDeps exScriptImportFail).outcome = Outcome.finished
    ∧ (sync exDeps exScriptImportFail).kvs = none
    ∧ (sync exDeps exScriptImportFail).logs =
        ["[NLU::Luis] The model needs to be updated",
          "[NLU::Luis] Could not sync the model. Error = undefined"]
    ∧ catchLog { message := "m", responseDetail := some "providerDetail" }
        = "[NLU::Luis] Could not sync the model. Error = providerDetail"
    ∧ catchLog { message := "Network Error", responseDetail := none }
        ≠ "[NLU::Luis] Could not sync the model. Error = Network Error" := by
  refine ⟨rfl, rfl, rfl, rfl, ?_⟩
  decide

/-- C6 (code observation): on a version-listing transport failure
`getRemoteVersion` returns the empty array and the run proceeds
non-fatally, but the empty array is truthy, so the `if (currentVersion)`
guard passes and a `deleteVersion` call IS issued. -/
theorem sync_lookup_failure_deletes :
    getRemoteVersion (Except.error ()) = RemoteVersionValue.emptyArr
    ∧ Action.deleteCall ∈ (sync exDeps exScriptLookupFail).actions
    ∧ (sync exDeps exScriptLookupFail).outcome = Outcome.finished := by
  refine ⟨rfl, ?_, rfl⟩
  decide

/-- If the label loop succeeds, its accumulated `builtinEntities` list is
the fold of the insert-if-absent step over the resolved names. -/
theorem processLabels_ok_bents (reg : String → Option EntityInfo) :
    ∀ (ls : List Label) (bents : List String) (r : List EntOut × List String),
      processLabels reg ls bents = .ok r →
      r.2 = (labelNames reg ls).foldl jsIns bents := by
  intro ls
  induction ls with
  | nil =>
    intro bents r h
    simp only [processLabels] at h
    injection h with h2
    subst h2
    simp [labelNames]
  | cons l0 ls ih =>
    intro bents r h
    cases hreg : reg l0.type with
    | none =>
      simp only [processLabels, hreg] at h
      exact Except.noConfusion h
    | some info =>
      by_cases hpre : jsStartsWith l0.type "@native." = true
      · cases hsup : info.luis with
        | none =>
          simp only [processLabels, hreg, if_pos hpre, hsup] at h
          exact Except.noConfusion h
        | some nm =>
          cases hrec : processLabels reg ls (jsIns bents nm) with
          | error e =>
            simp only [processLabels, hreg, if_pos hpre, hsup, hrec] at h
            exact Except.noConfusion h
          | ok r0 =>
            obtain ⟨es0, b0⟩ := r0
            simp only [processLabels, hreg, if_pos hpre, hsup, hrec] at h
            injection h with h2
            subst h2
            simpa [labelNames, hreg, hsup] using ih (jsIns bents nm) (es0, b0) hrec
      · simp only [processLabels, hreg, if_neg hpre] at h
        exact Except.noConfusion h

/-- If the utterance loop succeeds, its accumulated `builtinEntities`
list is the fold over all names of the utterances of the intent. -/
theorem processUtts_ok_bents (deps : Deps) (intent : Intent) :
    ∀ (us : List String) (bents : List String) (r : List UttOut × List String),
      processUtts deps intent us bents = .ok r →
      r.2 = ((us.map (fun u =>
        labelNames deps.entities (deps.extractLabels u intent.entities).labels)).flatten).foldl
          jsIns bents := by
  intro us
  induction us with
  | nil =>
    intro bents r h
    simp only [processUtts] at h
    injection h with h2
    subst h2
    simp
  | cons u0 us ih =>
    intro bents r h
    cases hlab : processLabels deps.entities (deps.extractLabels u0 intent.entities).labels
        bents with
    | error e =>
      simp only [processUtts, hlab] at h
      exact Except.noConfusion h
    | ok r0 =>
      obtain ⟨es, bents'⟩ := r0
      cases hrec : processUtts deps intent us bents' with
      | error e =>
        simp only [processUtts, hlab, hrec] at h
        exact Except.noConfusion h
      | ok r1 =>
        obtain ⟨uts, b⟩ := r1
        simp only [processUtts, hlab, hrec] at h
        injection h with h2
        subst h2
        have h1 := processLabels_ok_bents deps.entities _ bents _ hlab
        simp only [List.map_cons, List.flatten_cons, List.foldl_append]
        rw [← h1]
        exact ih bents' (uts, b) hrec

/-- If the intent loop succeeds, its accumulated `builtinEntities` list
is the fold over the corpus-wide traversal of resolved names. -/
theorem processIntents_ok_bents (deps : Deps) :
    ∀ (intents : List Intent) (bents : List String) (r : List UttOut × List String),
      processIntents deps intents bents = .ok r →
      r.2 = (refNames deps intents).foldl jsIns bents := by
  intro intents
  induction intents with
  | nil =>
    intro bents r h
    simp only [processIntents] at h
    injection h with h2
    subst h2
    simp [refNames]
  | cons i0 is ih =>
    intro bents r h
    cases hutt : processUtts deps i0 i0.utterances bents with
    | error e =>
      simp only [processIntents, hutt] at h
      exact Except.noConfusion h
    | ok r0 =>
      obtain ⟨uts0, bents'⟩ := r0
      cases hrec : processIntents deps is bents' with
      | error e =>
        simp only [processIntents, hutt, hrec] at h
        exact Except.noConfusion h
      | ok r1 =>
        obtain ⟨uts1, b⟩ := r1
        simp only [processIntents, hutt, hrec] at h
        injection h with h2
        subst h2
        have h1 := processUtts_ok_bents deps i0 i0.utterances bents _ hutt
        simp only [refNames, List.map_cons, List.flatten_cons, List.foldl_append]
        rw [← h1]
        simpa [refNames] using ih bents' (uts1, b) hrec

/-- Folding the insert-if-absent step over a name list appends exactly
the first-appearance deduplication of the names not already present. -/
theorem foldl_jsIns_eq :
    ∀ (ns : List String) (acc : List String),
      ns.foldl jsIns acc
        = acc ++ firstOccDedup (ns.filter (fun n => !(acc.contains n))) := by
  intro ns
  induction ns with
  | nil =>
    intro acc
    simp [firstOccDedup]
  | cons n ns ih =>
    intro acc
    by_cases hmem : n ∈ acc
    · have hj : jsIns acc n = acc := by simp [jsIns, hmem]
      have hfilter : (n :: ns).filter (fun x => !(acc.contains x))
          = ns.filter (fun x => !(acc.contains x)) := by
        simp [List.filter_cons, hmem]
      rw [List.foldl_cons, hj, hfilter]
      exact ih acc
    · have hj : jsIns acc n = acc ++ [n] := by simp [jsIns, hmem]
      have hfilter : (n :: ns).filter (fun x => !(acc.contains x))
          = n :: ns.filter (fun x => !(acc.contains x)) := by
        simp [List.filter_cons, hmem]
      have hfilter2 : ns.filter (fun x => !((acc ++ [n]).contains x))
          = (ns.filter (fun x => !(acc.contains x))).filter (fun y => !(y == n)) := by
        rw [List.filter_filter]
        apply List.filter_congr
        intro x hx
        by_cases h1 : x ∈ acc <;> by_cases h2 : x = n <;> simp [h1, h2]
      rw [List.foldl_cons, hj, ih (acc ++ [n]), hfilter2, hfilter, firstOccDedup]
      simp

/-- Membership in the first-appearance deduplication is membership in the
original list. -/
theorem mem_firstOccDedup :
    ∀ (ns : List String) (a : String), a ∈ firstOccDedup ns ↔ a ∈ ns := by
  intro ns
  induction ns using firstOccDedup.induct with
  | case1 =>
    intro a
    simp [firstOccDedup]
  | case2 x xs ih =>
    intro a
    rw [firstOccDedup]
    by_cases hax : a = x
    · subst hax
      simp
    · simp only [List.mem_cons, ih a, List.mem_filter]
      constructor
      · rintro (rfl | ⟨h, -⟩)
        · exact Or.inl rfl
        · exact Or.inr h
      · rintro (rfl | h)
        · exact Or.inl rfl
        · exact Or.inr ⟨h, by simpa using hax⟩

/-- The first-appearance deduplication has no duplicates. -/
theorem nodup_firstOccDedup : ∀ ns : List String, (firstOccDedup ns).Nodup := by
  intro ns
  induction ns using firstOccDedup.induct with
  | case1 => simp [firstOccDedup]
  | case2 x xs ih =>
    rw [firstOccDedup]
    refine List.Nodup.cons ?_ ih
    intro hx
    have := (mem_firstOccDedup _ x).mp hx
    simp at this

/-- C8: when payload construction succeeds, the `bing_entities` list it
accumulates is exactly the first-appearance deduplication of the
provider-native names referenced during the intent/utterance/label
traversal: each referenced name appears exactly once, in order of first
appearance. -/
theorem build_bing_entities_dedup (deps : Deps) (intents : List Intent)
    (uts : List UttOut) (bents : List String)
    (h : buildModel deps intents = .ok (uts, bents)) :
    bents = firstOccDedup (refNames deps intents)
    ∧ bents.Nodup
    ∧ ∀ n, n ∈ bents ↔ n ∈ refNames deps intents := by
  have h2 := processIntents_ok_bents deps intents [] (uts, bents) h
  have h3 : bents = firstOccDedup (refNames deps intents) := by
    rw [show bents = ((uts, bents) : List UttOut × List String).2 from rfl, h2,
      foldl_jsIns_eq]
    simp
  refine ⟨h3, ?_, ?_⟩
  · rw [h3]
    exact nodup_firstOccDedup _
  · intro n
    rw [h3]
    exact mem_firstOccDedup _ n

/-- C8 witness: a corpus referencing time, number, then time again yields
the two names once each, in first-appearance order. -/
theorem build_bing_entities_dedup_witness :
    (["builtin.datetime", "builtin.number"] : List String)
        = firstOccDedup (refNames exDepsDedup [exIntent])
    ∧ (["builtin.datetime", "builtin.number"] : List String).Nodup :=
  ⟨(build_bing_entities_dedup exDepsDedup [exIntent]
      [{ text := "hi", intent := "greet",
         entities := [{ entity := "builtin.datetime", startPos := 0, endPos := 1 },
           { entity := "builtin.number", startPos := 1, endPos := 2 },
           { entity := "builtin.datetime", startPos := 0, endPos := 1 }] }]
      ["builtin.datetime", "builtin.number"] rfl).1,
    (build_bing_entities_dedup exDepsDedup [exIntent]
      [{ text := "hi", intent := "greet",
         entities := [{ entity := "builtin.datetime", startPos := 0, endPos := 1 },
           { entity := "builtin.number", startPos := 1, endPos := 2 },
           { entity := "builtin.datetime", startPos := 0, endPos := 1 }] }]
      ["builtin.datetime", "builtin.number"] rfl).2.1⟩

end Luis
